import Mathlib

/-!
Verification of the arbitrage-detection core of the `agent-challenge`
repository (`src/mastra/agents/arb-agent/arb-tool.ts`).

Numbers are modelled as rationals (`ℚ`): the JavaScript source computes with
IEEE doubles, but every property at stake is an exact arithmetic identity
(`profit = sellPrice - buyPrice`, scaling by a rate, rounding to four decimal
digits), so the rational model captures the intended arithmetic exactly.
JavaScript `number.toFixed(4)` followed by `parseFloat` is modelled as
half-up rounding to four fractional digits (`round4`).
-/

namespace Arb

/-- One resting order of an orderbook: `interface OrderbookEntry` of
`arb-tool.ts` (`price`, `size`). -/
structure OrderbookEntry where
  price : ℚ
  size : ℚ
deriving Repr, DecidableEq

/-- An orderbook snapshot: `interface Orderbook` of `arb-tool.ts`
(`bids`, `asks`). -/
structure Orderbook where
  bids : List OrderbookEntry
  asks : List OrderbookEntry
deriving Repr, DecidableEq

/-- One cross-platform opportunity: `interface ArbitrageOpportunity` of
`arb-tool.ts`. The optional INR prices are `Option ℚ`. -/
structure ArbitrageOpportunity where
  platform1 : String
  platform2 : String
  market : String
  buyPrice : ℚ
  buyPriceINR : Option ℚ
  sellPrice : ℚ
  sellPriceINR : Option ℚ
  profit : ℚ
  profitPercentage : ℚ
  buySize : ℚ
  sellSize : ℚ
  isProfitable : Bool
deriving Repr, DecidableEq

/-- Half-up rounding to 4 fractional digits: the model of
`parseFloat(x.toFixed(4))` in `arb-tool.ts` line 205. -/
def round4 (q : ℚ) : ℚ :=
  (⌊q * 10000 + 1 / 2⌋ : ℚ) / 10000

/-- The currency conversion of `arb-tool.ts` lines 204–207 (the inline
construction of `proboOrderbookUSD` inside `execute`), called
`convertOrderbook` by the specification: every price is multiplied by the
rate and rounded to 4 fractional digits, sizes are copied unchanged. -/
def convertOrderbook (book : Orderbook) (rate : ℚ) : Orderbook :=
  { bids := book.bids.map (fun bid => { bid with price := round4 (bid.price * rate) }),
    asks := book.asks.map (fun ask => { ask with price := round4 (ask.price * rate) }) }

/-- Translation of `calculateArbitrage`, `arb-tool.ts` lines 97–163, clause by
clause. The source reads `asks[0]` / `bids[0]` (which are `undefined` on an
empty array, modelled by `List.head?`) and pushes one record per direction
whose guard passes; `inrToUsd` is a parameter of the source that the body
never uses, kept for fidelity. -/
def calculateArbitrage (proboOrderbookUSD proboOrderbookINR polymarketOrderbook : Orderbook)
    (marketId : String) (inrToUsd : ℚ) : List ArbitrageOpportunity :=
  let _ := inrToUsd
  let opportunities : List ArbitrageOpportunity := []
  let opportunities :=
    match proboOrderbookUSD.asks.head?, proboOrderbookINR.asks.head?,
        polymarketOrderbook.bids.head? with
    | some proboBestAskUSD, some proboBestAskINR, some polymarketBestBid =>
        let buyPrice := proboBestAskUSD.price
        let buyPriceINR := proboBestAskINR.price
        let sellPrice := polymarketBestBid.price
        let profit := sellPrice - buyPrice
        let profitPercentage := (profit / buyPrice) * 100
        let isProfitable := decide (profit > 0)
        opportunities ++ [{
          platform1 := "Probo (converted to USD)",
          platform2 := "Polymarket (USD)",
          market := marketId,
          buyPrice := buyPrice,
          buyPriceINR := some buyPriceINR,
          sellPrice := sellPrice,
          sellPriceINR := none,
          profit := profit,
          profitPercentage := profitPercentage,
          buySize := min proboBestAskUSD.size polymarketBestBid.size,
          sellSize := min proboBestAskUSD.size polymarketBestBid.size,
          isProfitable := isProfitable }]
    | _, _, _ => opportunities
  let opportunities :=
    match polymarketOrderbook.asks.head?, proboOrderbookUSD.bids.head?,
        proboOrderbookINR.bids.head? with
    | some polymarketBestAsk, some proboBestBidUSD, some proboBestBidINR =>
        let buyPrice := polymarketBestAsk.price
        let sellPrice := proboBestBidUSD.price
        let sellPriceINR := proboBestBidINR.price
        let profit := sellPrice - buyPrice
        let profitPercentage := (profit / buyPrice) * 100
        let isProfitable := decide (profit > 0)
        opportunities ++ [{
          platform1 := "Polymarket (USD)",
          platform2 := "Probo (converted to USD)",
          market := marketId,
          buyPrice := buyPrice,
          buyPriceINR := none,
          sellPrice := sellPrice,
          sellPriceINR := some sellPriceINR,
          profit := profit,
          profitPercentage := profitPercentage,
          buySize := min polymarketBestAsk.size proboBestBidUSD.size,
          sellSize := min polymarketBestAsk.size proboBestBidUSD.size,
          isProfitable := isProfitable }]
    | _, _, _ => opportunities
  opportunities

/-- The record the buy-Probo/sell-Polymarket branch of `calculateArbitrage`
pushes, as an `Option`: `some` exactly when that branch's guard passes.
Stated from the source's first `if` block (lines 111–132), for the
decomposition theorem of the result's shape and order. -/
def direction1 (proboOrderbookUSD proboOrderbookINR polymarketOrderbook : Orderbook)
    (marketId : String) : Option ArbitrageOpportunity :=
  match proboOrderbookUSD.asks.head?, proboOrderbookINR.asks.head?,
      polymarketOrderbook.bids.head? with
  | some proboBestAskUSD, some proboBestAskINR, some polymarketBestBid =>
      some {
        platform1 := "Probo (converted to USD)",
        platform2 := "Polymarket (USD)",
        market := marketId,
        buyPrice := proboBestAskUSD.price,
        buyPriceINR := some proboBestAskINR.price,
        sellPrice := polymarketBestBid.price,
        sellPriceINR := none,
        profit := polymarketBestBid.price - proboBestAskUSD.price,
        profitPercentage :=
          (polymarketBestBid.price - proboBestAskUSD.price) / proboBestAskUSD.price * 100,
        buySize := min proboBestAskUSD.size polymarketBestBid.size,
        sellSize := min proboBestAskUSD.size polymarketBestBid.size,
        isProfitable := decide (polymarketBestBid.price - proboBestAskUSD.price > 0) }
  | _, _, _ => none

/-- The record the buy-Polymarket/sell-Probo branch pushes (source lines
139–160), as an `Option`. -/
def direction2 (proboOrderbookUSD proboOrderbookINR polymarketOrderbook : Orderbook)
    (marketId : String) : Option ArbitrageOpportunity :=
  match polymarketOrderbook.asks.head?, proboOrderbookUSD.bids.head?,
      proboOrderbookINR.bids.head? with
  | some polymarketBestAsk, some proboBestBidUSD, some proboBestBidINR =>
      some {
        platform1 := "Polymarket (USD)",
        platform2 := "Probo (converted to USD)",
        market := marketId,
        buyPrice := polymarketBestAsk.price,
        buyPriceINR := none,
        sellPrice := proboBestBidUSD.price,
        sellPriceINR := some proboBestBidINR.price,
        profit := proboBestBidUSD.price - polymarketBestAsk.price,
        profitPercentage :=
          (proboBestBidUSD.price - polymarketBestAsk.price) / polymarketBestAsk.price * 100,
        buySize := min polymarketBestAsk.size proboBestBidUSD.size,
        sellSize := min polymarketBestAsk.size proboBestBidUSD.size,
        isProfitable := decide (proboBestBidUSD.price - polymarketBestAsk.price > 0) }
  | _, _, _ => none

/-- The reduction step of `profitableOpportunities.reduce` in `arb-tool.ts`
lines 218–220: keep the current best unless the next entry is strictly
better, so ties keep the earlier entry. -/
def bestStep (best current : ArbitrageOpportunity) : ArbitrageOpportunity :=
  if current.profitPercentage > best.profitPercentage then current else best

/-- The best-opportunity selection of `execute` in `arb-tool.ts` lines
213–220, called `selectBest` by the specification: filter the profitable
entries, then `reduce` with `bestStep` (a JavaScript `reduce` without an
initial value starts from the first element); `none` when no entry is
profitable, mirroring the `length > 0` guard. -/
def selectBest (opportunities : List ArbitrageOpportunity) : Option ArbitrageOpportunity :=
  let profitableOpportunities := opportunities.filter (fun opp => opp.isProfitable)
  match profitableOpportunities with
  | [] => none
  | best :: rest => some (rest.foldl bestStep best)

/-- The record returned by the `execute` handler of the `check-arbitrage`
tool (`arb-tool.ts` lines 238–252): the `outputSchema` fields. -/
structure ToolResult where
  opportunities : List ArbitrageOpportunity
  summary : String
  inrToUsd : ℚ
  timestamp : String
deriving Repr, DecidableEq

/-- The catch-branch summary of `execute` (`arb-tool.ts` line 248). -/
def errorSummary (marketId msg : String) : String :=
  "Error checking arbitrage for market " ++ marketId ++ ": " ++ msg

/-- The success-branch summary of `execute` (`arb-tool.ts` lines 216–236).
`fmt` models JavaScript template interpolation of a number and `fmt2` models
`toFixed(2)`; the inner `reduce` over the profitable entries is `bestStep`,
as in the source. -/
def successSummary (fmt fmt2 : ℚ → String) (marketId : String) (inrToUsd : ℚ)
    (opportunities : List ArbitrageOpportunity) : String :=
  let profitableOpportunities := opportunities.filter (fun opp => opp.isProfitable)
  let base := "INR→USD rate: " ++ fmt inrToUsd ++ "\nFound " ++
    toString opportunities.length ++ " arbitrage opportunities for market " ++
    marketId ++ ". "
  match profitableOpportunities with
  | [] => base ++ "No profitable arbitrage opportunities found."
  | best :: rest =>
      let bestOpportunity := rest.foldl bestStep best
      let buyPart :=
        match bestOpportunity.buyPriceINR with
        | some p => "₹" ++ fmt p ++ " (≈$" ++ fmt bestOpportunity.buyPrice ++ ")"
        | none => "$" ++ fmt bestOpportunity.buyPrice
      let sellPart :=
        match bestOpportunity.sellPriceINR with
        | some p => "₹" ++ fmt p ++ " (≈$" ++ fmt bestOpportunity.sellPrice ++ ")"
        | none => "$" ++ fmt bestOpportunity.sellPrice
      base ++ "Best opportunity: Buy on " ++ bestOpportunity.platform1 ++ " at " ++
        buyPart ++ " and sell on " ++ bestOpportunity.platform2 ++ " at " ++
        sellPart ++ " for " ++ fmt2 bestOpportunity.profitPercentage ++ "% profit."

/-- The `execute` handler of the `check-arbitrage` tool (`arb-tool.ts` lines
190–253). The awaited steps (exchange-rate fetch, the two orderbook fetches)
are modelled by `Except String` outcomes supplied by the caller, sequenced in
the source's order; any step's error lands in the catch branch, which returns
the fallback record with an empty opportunity list and `inrToUsd = 0`. The
timestamp string is a parameter (the source reads the wall clock). -/
def executeArb (fmt fmt2 : ℚ → String) (marketId : String)
    (rateStep : Except String ℚ)
    (proboStep polymarketStep : Except String Orderbook)
    (timestamp : String) : ToolResult :=
  match (do
      let inrToUsd ← rateStep
      let proboOrderbookINR ← proboStep
      let polymarketOrderbook ← polymarketStep
      pure (inrToUsd, proboOrderbookINR, polymarketOrderbook) :
      Except String (ℚ × Orderbook × Orderbook)) with
  | Except.error e =>
      { opportunities := [],
        summary := errorSummary marketId e,
        inrToUsd := 0,
        timestamp := timestamp }
  | Except.ok (inrToUsd, proboOrderbookINR, polymarketOrderbook) =>
      let proboOrderbookUSD := convertOrderbook proboOrderbookINR inrToUsd
      let opportunities :=
        calculateArbitrage proboOrderbookUSD proboOrderbookINR polymarketOrderbook
          marketId inrToUsd
      { opportunities := opportunities,
        summary := successSummary fmt fmt2 marketId inrToUsd opportunities,
        inrToUsd := inrToUsd,
        timestamp := timestamp }

/-!
A store-passing model of the conversion, for the frame property ("must not
mutate the input"). JavaScript orderbook levels are heap objects; the
source's `map(bid => ({ ...bid, price: ... }))` reads each input object and
allocates a fresh one. The heap is a list of entry cells addressed by index;
`alloc` appends. In this model a conversion that mutated an input level
would change the cell at its address, so non-mutation is a real theorem,
not a convention of the pure model.
-/

/-- A heap of orderbook-entry objects; addresses are indices into `cells`. -/
structure EntryHeap where
  cells : List OrderbookEntry
deriving Repr, DecidableEq

/-- Dereference an address. -/
def EntryHeap.read (h : EntryHeap) (a : Nat) : Option OrderbookEntry :=
  h.cells[a]?

/-- Allocate a fresh cell, returning the extended heap and the new address. -/
def EntryHeap.alloc (h : EntryHeap) (e : OrderbookEntry) : EntryHeap × Nat :=
  (⟨h.cells ++ [e]⟩, h.cells.length)

/-- An orderbook whose levels live in the heap: two lists of addresses. -/
structure OrderbookRef where
  bids : List Nat
  asks : List Nat
deriving Repr, DecidableEq

/-- Heap-level image of one level under conversion, as built by
`{ ...bid, price: parseFloat((bid.price * rate).toFixed(4)) }`. -/
def convertEntry (e : OrderbookEntry) (rate : ℚ) : OrderbookEntry :=
  { e with price := round4 (e.price * rate) }

/-- Heap-level `map` over one side of the book: read each input level and
allocate its converted copy (a dangling address reads as a zero entry; the
tool only ever passes live addresses). -/
def convertLevelsH (h : EntryHeap) (addrs : List Nat) (rate : ℚ) :
    EntryHeap × List Nat :=
  match addrs with
  | [] => (h, [])
  | a :: rest =>
      let e := (h.read a).getD { price := 0, size := 0 }
      let alloc1 := h.alloc (convertEntry e rate)
      let res := convertLevelsH alloc1.1 rest rate
      (res.1, alloc1.2 :: res.2)

/-- Heap-level conversion of a whole orderbook (`arb-tool.ts` lines
204–207): converts the bids, then the asks, allocating only fresh cells. -/
def convertOrderbookH (h : EntryHeap) (book : OrderbookRef) (rate : ℚ) :
    EntryHeap × OrderbookRef :=
  let res1 := convertLevelsH h book.bids rate
  let res2 := convertLevelsH res1.1 book.asks rate
  (res2.1, ⟨res1.2, res2.2⟩)

/-- A concrete converted Probo book used in witnesses: one ask at 0.46. -/
def wBookUSD : Orderbook := ⟨[], [⟨46 / 100, 100⟩]⟩

/-- A concrete local (INR) Probo book used in witnesses: one ask at 38. -/
def wBookINR : Orderbook := ⟨[], [⟨38, 100⟩]⟩

/-- A concrete Polymarket book used in witnesses: one bid at 0.48. -/
def wBookPoly : Orderbook := ⟨[⟨48 / 100, 100⟩], []⟩

/-- The opportunity `calculateArbitrage` emits for the three books above. -/
def wOpp : ArbitrageOpportunity :=
  { platform1 := "Probo (converted to USD)",
    platform2 := "Polymarket (USD)",
    market := "m",
    buyPrice := 46 / 100,
    buyPriceINR := some 38,
    sellPrice := 48 / 100,
    sellPriceINR := none,
    profit := 48 / 100 - 46 / 100,
    profitPercentage := (48 / 100 - 46 / 100) / (46 / 100) * 100,
    buySize := min 100 100,
    sellSize := min 100 100,
    isProfitable := decide ((48 : ℚ) / 100 - 46 / 100 > 0) }

/-- A profitable opportunity with `profitPercentage = 2.1`, the spec's
`selectBest` example. -/
def wOppLow : ArbitrageOpportunity :=
  { platform1 := "A", platform2 := "B", market := "m", buyPrice := 0,
    buyPriceINR := none, sellPrice := 0, sellPriceINR := none, profit := 0,
    profitPercentage := 21 / 10, buySize := 0, sellSize := 0, isProfitable := true }

/-- A profitable opportunity with `profitPercentage = 5.0`. -/
def wOppHigh : ArbitrageOpportunity :=
  { platform1 := "A", platform2 := "B", market := "m", buyPrice := 0,
    buyPriceINR := none, sellPrice := 0, sellPriceINR := none, profit := 0,
    profitPercentage := 5, buySize := 0, sellSize := 0, isProfitable := true }

/-! ## Theorems -/

/-- Decomposition of `calculateArbitrage`: the returned list is the
buy-Probo/sell-Polymarket record (when its guard passes) followed by the
buy-Polymarket/sell-Probo record (when its guard passes). -/
theorem calculateArbitrage_eq_directions (proboOrderbookUSD proboOrderbookINR
    polymarketOrderbook : Orderbook) (marketId : String) (inrToUsd : ℚ) :
    calculateArbitrage proboOrderbookUSD proboOrderbookINR polymarketOrderbook
        marketId inrToUsd =
      (direction1 proboOrderbookUSD proboOrderbookINR polymarketOrderbook marketId).toList ++
      (direction2 proboOrderbookUSD proboOrderbookINR polymarketOrderbook marketId).toList := by
  unfold calculateArbitrage direction1 direction2
  rcases h1 : proboOrderbookUSD.asks.head? with _ | a <;>
    rcases h2 : proboOrderbookINR.asks.head? with _ | a2 <;>
    rcases h3 : polymarketOrderbook.bids.head? with _ | b <;>
    rcases h4 : polymarketOrderbook.asks.head? with _ | c <;>
    rcases h5 : proboOrderbookUSD.bids.head? with _ | d <;>
    rcases h6 : proboOrderbookINR.bids.head? with _ | d2 <;>
    simp

/-- Inversion for `direction1`: a record is emitted only with all three
guards passing, and its fields are fixed by the two best levels. -/
theorem direction1_some {proboOrderbookUSD proboOrderbookINR polymarketOrderbook : Orderbook}
    {marketId : String} {o : ArbitrageOpportunity}
    (h : direction1 proboOrderbookUSD proboOrderbookINR polymarketOrderbook marketId =
      some o) :
    ∃ a a2 b, proboOrderbookUSD.asks.head? = some a ∧
      proboOrderbookINR.asks.head? = some a2 ∧
      polymarketOrderbook.bids.head? = some b ∧
      o = { platform1 := "Probo (converted to USD)",
            platform2 := "Polymarket (USD)",
            market := marketId,
            buyPrice := a.price,
            buyPriceINR := some a2.price,
            sellPrice := b.price,
            sellPriceINR := none,
            profit := b.price - a.price,
            profitPercentage := (b.price - a.price) / a.price * 100,
            buySize := min a.size b.size,
            sellSize := min a.size b.size,
            isProfitable := decide (b.price - a.price > 0) } := by
  unfold direction1 at h
  rcases h1 : proboOrderbookUSD.asks.head? with _ | a <;>
    rcases h2 : proboOrderbookINR.asks.head? with _ | a2 <;>
    rcases h3 : polymarketOrderbook.bids.head? with _ | b <;>
    simp [h1, h2, h3] at h
  refine ⟨a, a2, b, rfl, rfl, rfl, ?_⟩
  rw [← h]
  simp [decide_eq_decide, sub_pos]

/-- Inversion for `direction2`. -/
theorem direction2_some {proboOrderbookUSD proboOrderbookINR polymarketOrderbook : Orderbook}
    {marketId : String} {o : ArbitrageOpportunity}
    (h : direction2 proboOrderbookUSD proboOrderbookINR polymarketOrderbook marketId =
      some o) :
    ∃ c d d2, polymarketOrderbook.asks.head? = some c ∧
      proboOrderbookUSD.bids.head? = some d ∧
      proboOrderbookINR.bids.head? = some d2 ∧
      o = { platform1 := "Polymarket (USD)",
            platform2 := "Probo (converted to USD)",
            market := marketId,
            buyPrice := c.price,
            buyPriceINR := none,
            sellPrice := d.price,
            sellPriceINR := some d2.price,
            profit := d.price - c.price,
            profitPercentage := (d.price - c.price) / c.price * 100,
            buySize := min c.size d.size,
            sellSize := min c.size d.size,
            isProfitable := decide (d.price - c.price > 0) } := by
  unfold direction2 at h
  rcases h1 : polymarketOrderbook.asks.head? with _ | c <;>
    rcases h2 : proboOrderbookUSD.bids.head? with _ | d <;>
    rcases h3 : proboOrderbookINR.bids.head? with _ | d2 <;>
    simp [h1, h2, h3] at h
  refine ⟨c, d, d2, rfl, rfl, rfl, ?_⟩
  rw [← h]
  simp [decide_eq_decide, sub_pos]

/-- Claim C3: for every pair of orderbooks (the converted view, the local
view, and the counterparty book), `calculateArbitrage` returns a sequence of
length 0, 1 or 2 that decomposes as the buy-Probo/sell-Polymarket record
first (when present), then the buy-Polymarket/sell-Probo record: the order
is fixed by direction, never sorted by profit. -/
theorem calculateArbitrage_shape (proboOrderbookUSD proboOrderbookINR polymarketOrderbook :
    Orderbook) (marketId : String) (inrToUsd : ℚ) :
    (calculateArbitrage proboOrderbookUSD proboOrderbookINR polymarketOrderbook
        marketId inrToUsd).length ≤ 2 ∧
    calculateArbitrage proboOrderbookUSD proboOrderbookINR polymarketOrderbook
        marketId inrToUsd =
      (direction1 proboOrderbookUSD proboOrderbookINR polymarketOrderbook marketId).toList ++
      (direction2 proboOrderbookUSD proboOrderbookINR polymarketOrderbook marketId).toList ∧
    (∀ o, direction1 proboOrderbookUSD proboOrderbookINR polymarketOrderbook marketId =
        some o →
      o.platform1 = "Probo (converted to USD)" ∧ o.platform2 = "Polymarket (USD)") ∧
    (∀ o, direction2 proboOrderbookUSD proboOrderbookINR polymarketOrderbook marketId =
        some o →
      o.platform1 = "Polymarket (USD)" ∧ o.platform2 = "Probo (converted to USD)") := by
  unfold calculateArbitrage direction1 direction2
  rcases h1 : proboOrderbookUSD.asks.head? with _ | a <;>
    rcases h2 : proboOrderbookINR.asks.head? with _ | a2 <;>
    rcases h3 : polymarketOrderbook.bids.head? with _ | b <;>
    rcases h4 : polymarketOrderbook.asks.head? with _ | c <;>
    rcases h5 : proboOrderbookUSD.bids.head? with _ | d <;>
    rcases h6 : proboOrderbookINR.bids.head? with _ | d2 <;>
    simp

/-- Claim C2: a direction contributes no record (and no zero-filled
placeholder) exactly when the buy side's best ask is absent or the sell
side's best bid is absent; with the converted book built from the local book
(as the tool does), the two views agree on emptiness, and absence is a
silent skip — `calculateArbitrage` is total, absence never raises. -/
theorem calculateArbitrage_skip_absent (bookINR bookPoly : Orderbook) (marketId : String)
    (rate : ℚ) :
    (calculateArbitrage (convertOrderbook bookINR rate) bookINR bookPoly
        marketId rate).length =
      (if bookINR.asks = [] ∨ bookPoly.bids = [] then 0 else 1) +
      (if bookPoly.asks = [] ∨ bookINR.bids = [] then 0 else 1) := by
  unfold calculateArbitrage convertOrderbook
  rcases hINRasks : bookINR.asks with _ | ⟨a, as⟩ <;>
    rcases hPolyBids : bookPoly.bids with _ | ⟨b, bs⟩ <;>
    rcases hPolyAsks : bookPoly.asks with _ | ⟨c, cs⟩ <;>
    rcases hINRbids : bookINR.bids with _ | ⟨d, ds⟩ <;>
    simp_all

/-- Claim C4: for a positive rate, the conversion keeps the number and order
of levels on both sides, maps every price to `round4 (price * rate)` with
the size untouched, and the rounding is half-up to four digits: the spec's
example `38.0 * 0.012 = 0.4560` is included. -/
theorem convertOrderbook_scales (book : Orderbook) (rate : ℚ) (hrate : 0 < rate) :
    (convertOrderbook book rate).bids.length = book.bids.length ∧
    (convertOrderbook book rate).asks.length = book.asks.length ∧
    (∀ (i : ℕ) (e : OrderbookEntry), book.bids[i]? = some e →
      (convertOrderbook book rate).bids[i]? =
        some { price := round4 (e.price * rate), size := e.size }) ∧
    (∀ (i : ℕ) (e : OrderbookEntry), book.asks[i]? = some e →
      (convertOrderbook book rate).asks[i]? =
        some { price := round4 (e.price * rate), size := e.size }) ∧
    round4 (38 * (12 / 1000)) = 456 / 1000 := by
  refine ⟨by simp [convertOrderbook], by simp [convertOrderbook], ?_, ?_,
    by norm_num [round4]⟩ <;>
  · intro i e he
    simp [convertOrderbook, List.getElem?_map, he]

/-- Witness for C4 at the spec's own example: rate `0.012` is positive and
the single bid `38.0` converts to `0.4560` with its size kept. -/
theorem convertOrderbook_scales_witness :
    (0 : ℚ) < 12 / 1000 ∧
    (convertOrderbook ⟨[⟨38, 100⟩], []⟩ (12 / 1000)).bids[0]? =
      some { price := round4 (38 * (12 / 1000)), size := 100 } := by
  refine ⟨by norm_num, ?_⟩
  exact (convertOrderbook_scales ⟨[⟨38, 100⟩], []⟩ (12 / 1000)
    (by norm_num)).2.2.1 0 ⟨38, 100⟩ rfl

/-- Counterexample to claim C6: called with the non-positive rate `0`, the
conversion does not fail — the source has no rate validation and no
`InvalidRateError` — and the conversion arithmetic runs, returning the
orderbook with price `38 * 0` rounded to `0`. -/
theorem convertOrderbook_zero_rate_no_error :
    convertOrderbook ⟨[⟨38, 100⟩], []⟩ 0 = ⟨[⟨0, 100⟩], []⟩ ∧ ¬ (0 : ℚ) < 0 := by
  constructor
  · norm_num [convertOrderbook, round4]
  · simp

/-- Claim C6 amended: `convertOrderbook` performs no rate validation at all:
for every rate — positive, zero, or negative — it returns the converted
orderbook, every price scaled and rounded, every size kept. -/
theorem convertOrderbook_no_rate_validation (book : Orderbook) (rate : ℚ) :
    (convertOrderbook book rate).bids.length = book.bids.length ∧
    (convertOrderbook book rate).asks.length = book.asks.length ∧
    (∀ (i : ℕ) (e : OrderbookEntry), book.bids[i]? = some e →
      (convertOrderbook book rate).bids[i]? =
        some { price := round4 (e.price * rate), size := e.size }) ∧
    (∀ (i : ℕ) (e : OrderbookEntry), book.asks[i]? = some e →
      (convertOrderbook book rate).asks[i]? =
        some { price := round4 (e.price * rate), size := e.size }) := by
  refine ⟨by simp [convertOrderbook], by simp [convertOrderbook], ?_, ?_⟩ <;>
  · intro i e he
    simp [convertOrderbook, List.getElem?_map, he]

/-- A price whose ten-thousandth multiple is an integer is a fixed point of
the half-up rounding. -/
theorem round4_den_one (p : ℚ) (hp : (p * 10000).den = 1) : round4 p = p := by
  have h : ((p * 10000).num : ℚ) = p * 10000 := by
    exact_mod_cast (Rat.den_eq_one_iff (p * 10000)).mp hp
  unfold round4
  rw [show p * 10000 + 1 / 2 = ((p * 10000).num : ℚ) + 1 / 2 by rw [h],
    Int.floor_int_add]
  norm_num
  rw [h]
  ring

/-- Counterexample to claim C8: with rate `1` the conversion is not the
identity on every orderbook — a price of `1/3` (more than four fractional
digits) is rounded to `0.3333`, so the output differs from the input. -/
theorem convertOrderbook_rate_one_not_id :
    ¬ convertOrderbook ⟨[⟨1 / 3, 100⟩], []⟩ 1 = ⟨[⟨1 / 3, 100⟩], []⟩ := by
  norm_num [convertOrderbook, round4]

/-- Claim C8 amended: with rate `1` the conversion is the identity on every
orderbook whose prices are exactly representable in four fractional digits
(each `price * 10000` is an integer) — the rounding step makes it alter any
finer price. -/
theorem convertOrderbook_rate_one_id (book : Orderbook)
    (hbids : ∀ e ∈ book.bids, (e.price * 10000).den = 1)
    (hasks : ∀ e ∈ book.asks, (e.price * 10000).den = 1) :
    convertOrderbook book 1 = book := by
  have key : ∀ e : OrderbookEntry, (e.price * 10000).den = 1 →
      ({ e with price := round4 (e.price * 1) } : OrderbookEntry) = e := by
    intro e he
    rw [mul_one, round4_den_one e.price he]
  cases book with
  | mk bids asks =>
      unfold convertOrderbook
      simp only [Orderbook.mk.injEq]
      constructor
      · rw [show (bids.map fun bid => { bid with price := round4 (bid.price * 1) }) =
            bids.map id from List.map_congr_left (fun e he => key e (hbids e he))]
        exact List.map_id bids
      · rw [show (asks.map fun ask => { ask with price := round4 (ask.price * 1) }) =
            asks.map id from List.map_congr_left (fun e he => key e (hasks e he))]
        exact List.map_id asks

/-- Witness for C8 amended: a two-level book with four-digit prices is fixed
by conversion at rate 1. -/
theorem convertOrderbook_rate_one_id_witness :
    (∀ e ∈ ([⟨45 / 100, 100⟩] : List OrderbookEntry), (e.price * 10000).den = 1) ∧
    (∀ e ∈ ([⟨46 / 100, 150⟩] : List OrderbookEntry), (e.price * 10000).den = 1) ∧
    convertOrderbook ⟨[⟨45 / 100, 100⟩], [⟨46 / 100, 150⟩]⟩ 1 =
      ⟨[⟨45 / 100, 100⟩], [⟨46 / 100, 150⟩]⟩ := by
  refine ⟨?_, ?_, ?_⟩
  · intro e he
    simp at he
    rw [he]
    norm_num
  · intro e he
    simp at he
    rw [he]
    norm_num
  · exact convertOrderbook_rate_one_id ⟨[⟨45 / 100, 100⟩], [⟨46 / 100, 150⟩]⟩
      (by intro e he; simp at he; rw [he]; norm_num)
      (by intro e he; simp at he; rw [he]; norm_num)

/-- Claim C1: every emitted opportunity is computed from the buy side's
best (first) ask and the sell side's best (first) bid: `buyPrice` is the
ask's price, `sellPrice` the bid's price, `profit = sellPrice - buyPrice`,
`profitPercentage = profit / buyPrice * 100`, `buySize = sellSize =
min(ask.size, bid.size)`, and `isProfitable` holds exactly when the profit
is positive. The two directions are told apart by the platform labels. -/
theorem calculateArbitrage_fields (proboOrderbookUSD proboOrderbookINR polymarketOrderbook :
    Orderbook) (marketId : String) (inrToUsd : ℚ) (o : ArbitrageOpportunity)
    (ho : o ∈ calculateArbitrage proboOrderbookUSD proboOrderbookINR polymarketOrderbook
      marketId inrToUsd) :
    ∃ bestAsk bestBid : OrderbookEntry,
      ((o.platform1 = "Probo (converted to USD)" ∧
          proboOrderbookUSD.asks.head? = some bestAsk ∧
          polymarketOrderbook.bids.head? = some bestBid) ∨
        (o.platform1 = "Polymarket (USD)" ∧
          polymarketOrderbook.asks.head? = some bestAsk ∧
          proboOrderbookUSD.bids.head? = some bestBid)) ∧
      o.buyPrice = bestAsk.price ∧
      o.sellPrice = bestBid.price ∧
      o.profit = o.sellPrice - o.buyPrice ∧
      o.profitPercentage = o.profit / o.buyPrice * 100 ∧
      o.buySize = min bestAsk.size bestBid.size ∧
      o.sellSize = o.buySize ∧
      (o.isProfitable = true ↔ 0 < o.profit) := by
  rw [calculateArbitrage_eq_directions] at ho
  rcases List.mem_append.mp ho with hm | hm
  · obtain ⟨a, a2, b, h1, h2, h3, rfl⟩ :=
      direction1_some (Option.mem_def.mp (Option.mem_toList.mp hm))
    exact ⟨a, b, Or.inl ⟨rfl, h1, h3⟩, rfl, rfl, rfl, rfl, rfl, rfl, by simp [sub_pos]⟩
  · obtain ⟨c, d, d2, h1, h2, h3, rfl⟩ :=
      direction2_some (Option.mem_def.mp (Option.mem_toList.mp hm))
    exact ⟨c, d, Or.inr ⟨rfl, h1, h2⟩, rfl, rfl, rfl, rfl, rfl, rfl, by simp [sub_pos]⟩

/-- Witness for C1: a concrete pair of books with one opportunity in the
buy-Probo direction; its record satisfies every field identity. -/
theorem calculateArbitrage_fields_witness :
    wOpp ∈ calculateArbitrage wBookUSD wBookINR wBookPoly "m" (12 / 1000) ∧
    ∃ bestAsk bestBid : OrderbookEntry,
      ((wOpp.platform1 = "Probo (converted to USD)" ∧
          wBookUSD.asks.head? = some bestAsk ∧
          wBookPoly.bids.head? = some bestBid) ∨
        (wOpp.platform1 = "Polymarket (USD)" ∧
          wBookPoly.asks.head? = some bestAsk ∧
          wBookUSD.bids.head? = some bestBid)) ∧
      wOpp.buyPrice = bestAsk.price ∧
      wOpp.sellPrice = bestBid.price ∧
      wOpp.profit = wOpp.sellPrice - wOpp.buyPrice ∧
      wOpp.profitPercentage = wOpp.profit / wOpp.buyPrice * 100 ∧
      wOpp.buySize = min bestAsk.size bestBid.size ∧
      wOpp.sellSize = wOpp.buySize ∧
      (wOpp.isProfitable = true ↔ 0 < wOpp.profit) := by
  have hm : wOpp ∈ calculateArbitrage wBookUSD wBookINR wBookPoly "m" (12 / 1000) := by
    simp [calculateArbitrage, wBookUSD, wBookINR, wBookPoly, wOpp]
  exact ⟨hm, calculateArbitrage_fields wBookUSD wBookINR wBookPoly "m" (12 / 1000) wOpp hm⟩

/-- Counterexample to claim C7: the source has no construction/validation
step and no `InvalidOrderbookError` — a malformed orderbook whose best ask
carries the negative price `-5` is processed by the ordinary arithmetic,
emitting a normal record instead of failing before any arithmetic. -/
theorem calculateArbitrage_malformed_processed :
    calculateArbitrage ⟨[], [⟨-5, 100⟩]⟩ ⟨[], [⟨-5, 100⟩]⟩ ⟨[⟨48 / 100, 100⟩], []⟩
        "m" 1 =
      [{ platform1 := "Probo (converted to USD)",
         platform2 := "Polymarket (USD)",
         market := "m",
         buyPrice := -5,
         buyPriceINR := some (-5),
         sellPrice := 48 / 100,
         sellPriceINR := none,
         profit := 48 / 100 - (-5),
         profitPercentage := (48 / 100 - (-5)) / (-5) * 100,
         buySize := min 100 100,
         sellSize := min 100 100,
         isProfitable := decide ((48 : ℚ) / 100 - (-5) > 0) }] := by
  simp [calculateArbitrage]

/-- Claim C7 amended: `calculateArbitrage` never throws for any input at
all, well-formed or not: it is a total function, validates nothing, and on
every input — including books with non-positive prices or sizes — returns a
list of at most two records satisfying the arithmetic identities. -/
theorem calculateArbitrage_never_throws (proboOrderbookUSD proboOrderbookINR
    polymarketOrderbook : Orderbook) (marketId : String) (inrToUsd : ℚ) :
    (calculateArbitrage proboOrderbookUSD proboOrderbookINR polymarketOrderbook
        marketId inrToUsd).length ≤ 2 ∧
    ∀ o ∈ calculateArbitrage proboOrderbookUSD proboOrderbookINR polymarketOrderbook
        marketId inrToUsd,
      o.profit = o.sellPrice - o.buyPrice ∧
      o.profitPercentage = o.profit / o.buyPrice * 100 := by
  rw [calculateArbitrage_eq_directions]
  constructor
  · cases direction1 proboOrderbookUSD proboOrderbookINR polymarketOrderbook marketId <;>
      cases direction2 proboOrderbookUSD proboOrderbookINR polymarketOrderbook marketId <;>
      simp
  · intro o ho
    rcases List.mem_append.mp ho with hm | hm
    · obtain ⟨a, a2, b, h1, h2, h3, rfl⟩ :=
        direction1_some (Option.mem_def.mp (Option.mem_toList.mp hm))
      exact ⟨rfl, rfl⟩
    · obtain ⟨c, d, d2, h1, h2, h3, rfl⟩ :=
        direction2_some (Option.mem_def.mp (Option.mem_toList.mp hm))
      exact ⟨rfl, rfl⟩

/-- The step never goes below its first argument's percentage. -/
theorem bestStep_le_left (a b : ArbitrageOpportunity) :
    a.profitPercentage ≤ (bestStep a b).profitPercentage := by
  unfold bestStep
  by_cases h : b.profitPercentage > a.profitPercentage
  · simp only [if_pos h]
    exact le_of_lt h
  · simp only [if_neg h]
    exact le_refl _

/-- The step never goes below its second argument's percentage. -/
theorem bestStep_le_right (a b : ArbitrageOpportunity) :
    b.profitPercentage ≤ (bestStep a b).profitPercentage := by
  unfold bestStep
  by_cases h : b.profitPercentage > a.profitPercentage
  · simp only [if_pos h]
    exact le_refl _
  · simp only [if_neg h]
    exact le_of_not_lt h

/-- The running best of the reduction never drops below its seed. -/
theorem foldl_bestStep_init_le (l : List ArbitrageOpportunity) (a : ArbitrageOpportunity) :
    a.profitPercentage ≤ (l.foldl bestStep a).profitPercentage := by
  induction l generalizing a with
  | nil => simp
  | cons b t ih =>
      rw [List.foldl_cons]
      exact le_trans (bestStep_le_left a b) (ih (bestStep a b))

/-- The reduction returns one of the candidates. -/
theorem foldl_bestStep_mem (l : List ArbitrageOpportunity) (a : ArbitrageOpportunity) :
    l.foldl bestStep a ∈ a :: l := by
  induction l generalizing a with
  | nil => simp
  | cons b t ih =>
      rw [List.foldl_cons]
      rcases List.mem_cons.mp (ih (bestStep a b)) with h' | h'
      · rw [h']
        by_cases hc : b.profitPercentage > a.profitPercentage
        · simp [bestStep, hc]
        · simp [bestStep, hc]
      · exact List.mem_cons_of_mem _ (List.mem_cons_of_mem _ h')

/-- The reduction's result bounds every candidate's percentage. -/
theorem foldl_bestStep_le (l : List ArbitrageOpportunity) (a x : ArbitrageOpportunity)
    (hx : x ∈ a :: l) :
    x.profitPercentage ≤ (l.foldl bestStep a).profitPercentage := by
  induction l generalizing a with
  | nil =>
      simp at hx
      rw [hx]
      simp
  | cons b t ih =>
      rw [List.foldl_cons]
      rcases List.mem_cons.mp hx with h' | h'
      · subst h'
        exact le_trans (bestStep_le_left x b) (foldl_bestStep_init_le t (bestStep x b))
      · rcases List.mem_cons.mp h' with h'' | h''
        · subst h''
          exact le_trans (bestStep_le_right a x) (foldl_bestStep_init_le t (bestStep a x))
        · exact ih (bestStep a b) (List.mem_cons_of_mem _ h'')

/-- The reduction's result is the first candidate attaining the maximum
percentage: a strictly-greater-than comparison keeps the earlier entry on
ties, so searching for the first candidate at or above the result's
percentage finds the result itself. -/
theorem foldl_bestStep_find (l : List ArbitrageOpportunity) (a : ArbitrageOpportunity) :
    (a :: l).find?
        (fun x => decide ((l.foldl bestStep a).profitPercentage ≤ x.profitPercentage)) =
      some (l.foldl bestStep a) := by
  induction l generalizing a with
  | nil => simp [List.find?]
  | cons b t ih =>
      rw [List.foldl_cons]
      by_cases hb : b.profitPercentage > a.profitPercentage
      · have hs : bestStep a b = b := by simp [bestStep, hb]
        rw [hs]
        have hlt : a.profitPercentage < (t.foldl bestStep b).profitPercentage :=
          lt_of_lt_of_le hb (foldl_bestStep_le t b b (List.mem_cons_self _ _))
        have hpa : (decide ((t.foldl bestStep b).profitPercentage ≤
            a.profitPercentage)) = false := by
          simp [not_le.mpr hlt]
        rw [List.find?_cons_of_neg _ (by simp [hpa]), ih b]
      · have hs : bestStep a b = a := by simp [bestStep, hb]
        rw [hs]
        have hIH := ih a
        by_cases hpa : (t.foldl bestStep a).profitPercentage ≤ a.profitPercentage
        · have hfa : (a :: t).find?
              (fun x => decide ((t.foldl bestStep a).profitPercentage ≤
                x.profitPercentage)) = some a := List.find?_cons_of_pos _ (by simp [hpa])
          have hra : t.foldl bestStep a = a := Option.some.inj (hIH.symm.trans hfa)
          rw [hra]
          exact List.find?_cons_of_pos _ (by simp)
        · have hab : b.profitPercentage ≤ a.profitPercentage := le_of_not_lt hb
          have hpb : ¬ (t.foldl bestStep a).profitPercentage ≤ b.profitPercentage :=
            fun hle => hpa (le_trans hle hab)
          have ht : t.find?
              (fun x => decide ((t.foldl bestStep a).profitPercentage ≤
                x.profitPercentage)) = some (t.foldl bestStep a) := by
            have h2 := hIH
            rw [List.find?_cons_of_neg _ (by simp [hpa])] at h2
            exact h2
          rw [List.find?_cons_of_neg _ (by simp [hpa]),
            List.find?_cons_of_neg _ (by simp [hpb]), ht]

/-- Claim C5: `selectBest` returns `none` exactly when no entry is
profitable (in particular on the empty sequence); otherwise it returns a
profitable member of the input whose `profitPercentage` bounds every
profitable entry, and which is the first entry of the profitable
subsequence attaining that maximum — ties keep the first-encountered. -/
theorem selectBest_correct (opportunities : List ArbitrageOpportunity) :
    (selectBest opportunities = none ↔
      opportunities.filter (fun opp => opp.isProfitable) = []) ∧
    ∀ o, selectBest opportunities = some o →
      o ∈ opportunities ∧ o.isProfitable = true ∧
      (∀ x ∈ opportunities, x.isProfitable = true →
        x.profitPercentage ≤ o.profitPercentage) ∧
      (opportunities.filter (fun opp => opp.isProfitable)).find?
          (fun x => decide (o.profitPercentage ≤ x.profitPercentage)) = some o := by
  constructor
  · unfold selectBest
    cases hf : opportunities.filter (fun opp => opp.isProfitable) <;> simp [hf]
  · intro o ho
    unfold selectBest at ho
    cases hf : opportunities.filter (fun opp => opp.isProfitable) with
    | nil => rw [hf] at ho; simp at ho
    | cons best rest =>
        rw [hf] at ho
        simp only [Option.some.injEq] at ho
        subst ho
        have hmem := foldl_bestStep_mem rest best
        rw [← hf] at hmem
        refine ⟨List.mem_of_mem_filter hmem, List.of_mem_filter hmem, ?_, ?_⟩
        · intro x hx hxp
          have hxf : x ∈ opportunities.filter (fun opp => opp.isProfitable) :=
            List.mem_filter.mpr ⟨hx, by simp [hxp]⟩
          rw [hf] at hxf
          exact foldl_bestStep_le rest best x hxf
        · exact foldl_bestStep_find rest best

/-- Witness for C5 at the spec's example list (percentages 2.1 then 5.0,
both profitable): the second entry is selected and satisfies every clause
of the selection contract. -/
theorem selectBest_correct_witness :
    selectBest [wOppLow, wOppHigh] = some wOppHigh ∧
    (wOppHigh ∈ [wOppLow, wOppHigh] ∧ wOppHigh.isProfitable = true ∧
      (∀ x ∈ [wOppLow, wOppHigh], x.isProfitable = true →
        x.profitPercentage ≤ wOppHigh.profitPercentage) ∧
      ([wOppLow, wOppHigh].filter (fun opp => opp.isProfitable)).find?
          (fun x => decide (wOppHigh.profitPercentage ≤ x.profitPercentage)) =
        some wOppHigh) := by
  have hsel : selectBest [wOppLow, wOppHigh] = some wOppHigh := by
    norm_num [selectBest, bestStep, wOppLow, wOppHigh]
  exact ⟨hsel, (selectBest_correct [wOppLow, wOppHigh]).2 wOppHigh hsel⟩

/-- The heap-level conversion of one side only grows the heap and leaves
every pre-existing cell untouched. -/
theorem convertLevelsH_frame (addrs : List Nat) (h : EntryHeap) (rate : ℚ) :
    h.cells.length ≤ (convertLevelsH h addrs rate).1.cells.length ∧
    ∀ a, a < h.cells.length →
      (convertLevelsH h addrs rate).1.read a = h.read a := by
  induction addrs generalizing h with
  | nil => simp [convertLevelsH]
  | cons a0 rest ih =>
      unfold convertLevelsH
      simp only [EntryHeap.alloc]
      obtain ⟨ih1, ih2⟩ :=
        ih ⟨h.cells ++ [convertEntry ((h.read a0).getD { price := 0, size := 0 }) rate]⟩
      constructor
      · exact le_trans (by simp) ih1
      · intro a ha
        rw [ih2 a (by simp; omega)]
        unfold EntryHeap.read
        exact List.getElem?_append_left ha

/-- Claim C9: the conversion does not mutate its input. In the heap model
of the JavaScript object store, converting an orderbook only allocates
fresh cells: every address that existed before the call — in particular
every bid and ask level of the input book — still dereferences to exactly
the same entry (same price, same size) afterwards. -/
theorem convertOrderbookH_no_mutation (h : EntryHeap) (book : OrderbookRef) (rate : ℚ)
    (a : Nat) (ha : a < h.cells.length) :
    ((convertOrderbookH h book rate).1).read a = h.read a := by
  show (convertLevelsH (convertLevelsH h book.bids rate).1 book.asks rate).1.read a =
    h.read a
  obtain ⟨l1, p1⟩ := convertLevelsH_frame book.bids h rate
  obtain ⟨_, p2⟩ := convertLevelsH_frame book.asks (convertLevelsH h book.bids rate).1 rate
  rw [p2 a (lt_of_lt_of_le ha l1), p1 a ha]

/-- Witness for C9: a one-cell heap holding the level `38.0 × 100`,
converted at rate `0.012`; address `0` is in range and reads back
unchanged after the conversion. -/
theorem convertOrderbookH_no_mutation_witness :
    0 < (EntryHeap.mk [⟨38, 100⟩]).cells.length ∧
    ((convertOrderbookH ⟨[⟨38, 100⟩]⟩ ⟨[0], []⟩ (12 / 1000)).1).read 0 =
      EntryHeap.read ⟨[⟨38, 100⟩]⟩ 0 := by
  refine ⟨by simp, ?_⟩
  exact convertOrderbookH_no_mutation ⟨[⟨38, 100⟩]⟩ ⟨[0], []⟩ (12 / 1000) 0 (by simp)

/-- Claim C10: if any awaited step of the tool's execution fails (the rate
fetch, or either orderbook fetch), `execute` does not propagate the
exception: it returns a record with an empty opportunities list, the error
summary string, and `inrToUsd = 0` — a value that violates the `rate > 0`
invariant a caller might assume of successful results. -/
theorem executeArb_catch (fmt fmt2 : ℚ → String) (marketId errMsg timestamp : String)
    (rateStep : Except String ℚ) (proboStep polymarketStep : Except String Orderbook)
    (hfail : rateStep = Except.error errMsg ∨
      (∃ q, rateStep = Except.ok q ∧ proboStep = Except.error errMsg) ∨
      (∃ q b, rateStep = Except.ok q ∧ proboStep = Except.ok b ∧
        polymarketStep = Except.error errMsg)) :
    executeArb fmt fmt2 marketId rateStep proboStep polymarketStep timestamp =
      { opportunities := [],
        summary := errorSummary marketId errMsg,
        inrToUsd := 0,
        timestamp := timestamp } ∧
    ¬ 0 < (executeArb fmt fmt2 marketId rateStep proboStep polymarketStep
      timestamp).inrToUsd := by
  have hres : executeArb fmt fmt2 marketId rateStep proboStep polymarketStep timestamp =
      { opportunities := [],
        summary := errorSummary marketId errMsg,
        inrToUsd := 0,
        timestamp := timestamp } := by
    rcases hfail with hr | ⟨q, hq, hp⟩ | ⟨q, b, hq, hp, hm⟩
    · subst hr
      simp [executeArb, Bind.bind, Except.bind]
    · subst hq
      subst hp
      simp [executeArb, Bind.bind, Except.bind]
    · subst hq
      subst hp
      subst hm
      simp [executeArb, Bind.bind, Except.bind]
  refine ⟨hres, ?_⟩
  rw [hres]
  simp

/-- Witness for C10: with the rate fetch failing with message `"boom"`, the
tool returns the fallback record whose `inrToUsd` is `0`, not positive. -/
theorem executeArb_catch_witness :
    ((Except.error "boom" : Except String ℚ) = Except.error "boom" ∨
      (∃ q, (Except.error "boom" : Except String ℚ) = Except.ok q ∧
        (Except.ok wBookINR : Except String Orderbook) = Except.error "boom") ∨
      (∃ q b, (Except.error "boom" : Except String ℚ) = Except.ok q ∧
        (Except.ok wBookINR : Except String Orderbook) = Except.ok b ∧
        (Except.ok wBookPoly : Except String Orderbook) = Except.error "boom")) ∧
    executeArb (fun _ => "") (fun _ => "") "m" (Except.error "boom")
        (Except.ok wBookINR) (Except.ok wBookPoly) "t" =
      { opportunities := [],
        summary := errorSummary "m" "boom",
        inrToUsd := 0,
        timestamp := "t" } ∧
    ¬ 0 < (executeArb (fun _ => "") (fun _ => "") "m" (Except.error "boom")
      (Except.ok wBookINR) (Except.ok wBookPoly) "t").inrToUsd := by
  refine ⟨Or.inl rfl, ?_⟩
  exact executeArb_catch (fun _ => "") (fun _ => "") "m" "boom" "t"
    (Except.error "boom") (Except.ok wBookINR) (Except.ok wBookPoly) (Or.inl rfl)

end Arb
